import Mathlib

/-!
# Verification of the Type 3 Tag NDEF layer (nfc/tt3.py)

Shallow embedding of the NDEF attribute-block logic and the Type 3 Tag
command/response handling.  Python 2 byte strings are modelled as `List Nat`
(one entry per byte), the in-memory `NDEF` object state as `NDEFState`
(its `attr` list and the lazy `data` cache), and each transport exchange
as a `TagOp` value recorded in a trace.  The `while` loops of the chunked
read and write paths are modelled with an explicit iteration bound (`fuel`):
every iteration of the source loop removes `nb_max` blocks from the work
list, so for `nb_max ≥ 1` at most `blocks.length` iterations can occur and
the bound is never reached (the source diverges for `nb_max = 0`, which is
why every theorem about the chunking paths assumes `nb_max ≥ 1`).
-/

namespace Tt3

/-- Service code for NDEF reading (module constant `ndef_read_service = 11`). -/
def ndef_read_service : Nat := 11

/-- Service code for NDEF writing (module constant `ndef_write_service = 9`). -/
def ndef_write_service : Nat := 9

/-- `split2(x) = [x/0x100, x%0x100]` from the message setter. -/
def split2 (x : Nat) : List Nat := [x / 0x100, x % 0x100]

/-- `split3(x) = [x/0x10000, x/0x100%0x100, x%0x100]` from the message setter. -/
def split3 (x : Nat) : List Nat := [x / 0x10000, x / 0x100 % 0x100, x % 0x100]

/-- One hex digit, lowercase, as produced by Python's `str.encode("hex")`. -/
def hexDigit (n : Nat) : Char :=
  if n < 10 then Char.ofNat (48 + n) else Char.ofNat (87 + n)

/-- Two lowercase hex digits for one byte. -/
def hexByte (b : Nat) : String :=
  String.mk [hexDigit (b / 16), hexDigit (b % 16)]

/-- Lowercase hex encoding of a byte string, Python's `s.encode("hex")`. -/
def encodeHex : List Nat → String
  | [] => ""
  | b :: t => hexByte b ++ encodeHex t

/-- In-memory state of an `NDEF` object: the attribute block list `self.attr`
and the lazy message cache `self.data` (`None` until first read or a write). -/
structure NDEFState where
  attr : List Nat
  data : Option (List Nat)
deriving DecidableEq

/-- The constructor's integrity check:
`sum(self.attr[0:14]) == self.attr[14] * 0x100 + self.attr[15]`. -/
def checksumOk (attr : List Nat) : Bool :=
  (attr.take 14).sum == attr.getD 14 0 * 0x100 + attr.getD 15 0

/-- `NDEF.__init__` given the 16 bytes obtained by the block-0 read:
store the attribute list and reject (raise `ValueError`, i.e. produce no
object) unless the checksum invariant holds. -/
def ndefInit (block0 : List Nat) : Option NDEFState :=
  if checksumOk block0 then some ⟨block0, none⟩ else none

/-- `NDEF.capacity = (self.attr[3] * 256 + self.attr[4]) * 16`. -/
def capacity (attr : List Nat) : Nat :=
  (attr.getD 3 0 * 256 + attr.getD 4 0) * 16

/-- `NDEF.writeable = bool(self.attr[10])`. -/
def writeable (attr : List Nat) : Bool :=
  attr.getD 10 0 != 0

/-- Declared message length `self.attr[11]*65536 + self.attr[12]*256 + self.attr[13]`. -/
def ndefLength (attr : List Nat) : Nat :=
  attr.getD 11 0 * 65536 + attr.getD 12 0 * 256 + attr.getD 13 0

/-- `range(1, (n+15)/16 + 1)`: the data-block numbers `1 .. ceil(n/16)`. -/
def blockRange (n : Nat) : List Nat :=
  (List.range ((n + 15) / 16)).map (· + 1)

/-- One transport exchange issued through the `Type3Tag` channel:
a block read (block list, service code) or a block write
(data, block list, service code). -/
inductive TagOp where
  | read : List Nat → Nat → TagOp
  | write : List Nat → List Nat → Nat → TagOp
deriving DecidableEq

/-- Tag memory model for reads: `tag.read(blocks)` returns the 16-byte
contents of each requested block, concatenated in request order. -/
def tagReadBlocks (mem : Nat → List Nat) (blocks : List Nat) : List Nat :=
  (blocks.map mem).flatten

/-- The getter's `while len(blocks) > nb_max` loop: peel chunks of `nb_max`
block numbers off the front of the work list, then one final chunk with
whatever remains (nothing if the list is empty).  `fuel` bounds the
iteration count; it is never exhausted when `nb_max ≥ 1` (see above). -/
def readLoop : Nat → Nat → List Nat → List (List Nat)
  | 0, _, _ => []
  | fuel + 1, nbMax, blocks =>
    if nbMax < blocks.length then
      blocks.take nbMax :: readLoop fuel nbMax (blocks.drop nbMax)
    else if blocks.isEmpty then []
    else [blocks]

/-- The block-number chunks read by `NDEF.message`'s getter loop. -/
def readChunks (nbMax : Nat) (blocks : List Nat) : List (List Nat) :=
  readLoop blocks.length nbMax blocks

/-- `NDEF.message` getter: if `self.data is None`, read blocks
`1 .. ceil(length/16)` in chunks of at most `attr[1]` blocks, concatenate,
truncate to `length` bytes and cache; otherwise return the cache.
Returns (value, new state, issued exchanges). -/
def messageGet (mem : Nat → List Nat) (st : NDEFState) :
    List Nat × NDEFState × List TagOp :=
  match st.data with
  | some d => (d, st, [])
  | none =>
    let n := ndefLength st.attr
    let chunks := readChunks (st.attr.getD 1 0) (blockRange n)
    let msg := ((chunks.map (tagReadBlocks mem)).flatten).take n
    (msg, ⟨st.attr, some msg⟩, chunks.map (fun c => TagOp.read c ndef_read_service))

/-- The setter's `while len(blocks) > nb_max` loop: each iteration writes
`data[offset:offset+nb_max*16]` to the first `nb_max` blocks of the work
list; the final step appends `len(blocks)*16 - len(data)` zero bytes
(Python repeats a string a negative number of times as the empty string,
matching truncated `Nat` subtraction) and writes `data[offset:]` to the
remaining blocks.  Produces the (data, blocks) argument pairs passed to
`tag.write`.  `fuel` as in `readLoop`. -/
def writeLoop : Nat → List Nat → Nat → List Nat → Nat → List (List Nat × List Nat)
  | 0, _, _, _, _ => []
  | fuel + 1, data, nbMax, blocks, offset =>
    if nbMax < blocks.length then
      ((data.drop offset).take (nbMax * 16), blocks.take nbMax)
        :: writeLoop fuel data nbMax (blocks.drop nbMax) (offset + nbMax * 16)
    else if blocks.isEmpty then []
    else [((data ++ List.replicate (blocks.length * 16 - data.length) 0).drop offset, blocks)]

/-- The (data, blocks) chunks written by `NDEF.message`'s setter loop. -/
def writeChunks (data : List Nat) (nbMax : Nat) (blocks : List Nat) :
    List (List Nat × List Nat) :=
  writeLoop blocks.length data nbMax blocks 0

/-- Python slice assignment `l[i:i+len(repl)] = repl`. -/
def setSlice (l : List Nat) (i : Nat) (repl : List Nat) : List Nat :=
  l.take i ++ repl ++ l.drop (i + repl.length)

/-- First attribute-block mutation of the setter: `attr[9] = 0x0F`,
`attr[11:14] = split3(len(data))`, `attr[14:16] = split2(sum(attr[0:14]))`. -/
def markAttr (attr : List Nat) (n : Nat) : List Nat :=
  let a := setSlice (attr.set 9 0x0F) 11 (split3 n)
  setSlice a 14 (split2 (a.take 14).sum)

/-- Final attribute-block mutation of the setter: `attr[9] = 0x00`,
`attr[14:16] = split2(sum(attr[0:14]))`. -/
def finalAttr (attr : List Nat) : List Nat :=
  let a := attr.set 9 0x00
  setSlice a 14 (split2 (a.take 14).sum)

/-- `NDEF.message` setter.  Checks `writeable` then capacity (raising
`IOError` with the source's message and performing nothing otherwise),
then caches the new data, mutates and writes the attribute block, writes
the data chunks, and writes the finalized attribute block.  The trace
pairs each issued exchange with the in-memory `NDEFState` at the moment
the exchange is issued (`self.data` is assigned and the attribute list
mutated before the first `tag.write`). -/
def messageSet (st : NDEFState) (newData : List Nat) :
    List (NDEFState × TagOp) × Except String NDEFState :=
  if writeable st.attr = false then ([], Except.error "tag writing disabled")
  else if capacity st.attr < newData.length then ([], Except.error "too much data")
  else
    let a1 := markAttr st.attr newData.length
    let st1 : NDEFState := ⟨a1, some newData⟩
    let chunks := writeChunks newData (a1.getD 2 0) (blockRange newData.length)
    let a2 := finalAttr a1
    let st2 : NDEFState := ⟨a2, some newData⟩
    (((st1, TagOp.write a1 [0] ndef_write_service) ::
        chunks.map (fun c => (st1, TagOp.write c.1 c.2 ndef_write_service))) ++
      [(st2, TagOp.write a2 [0] ndef_write_service)],
     Except.ok st2)

/-- Response validation shared by `Type3Tag.read` and `Type3Tag.write`:
the response must start with `chr(len(resp))`, the response opcode and the
tag's IDm; then byte 11 is tested against zero, a non-zero value raising
`IOError("tt3 command error " + resp[11:13].encode("hex"))`; on success
the payload `resp[13:]` is returned. -/
def tt3CheckResp (respCode : Nat) (idm resp : List Nat) : Except String (List Nat) :=
  if List.isPrefixOf (resp.length :: respCode :: idm) resp = false then
    Except.error "invalid data"
  else if resp.getD 11 0 != 0 then
    Except.error ("tt3 command error " ++ encodeHex ((resp.drop 11).take 2))
  else Except.ok (resp.drop 13)

/-- `Type3Tag.read` response handling (response opcode `0x07`). -/
def type3ReadResp (idm resp : List Nat) : Except String (List Nat) :=
  tt3CheckResp 7 idm resp

/-- `Type3Tag.write` response handling (response opcode `0x09`). -/
def type3WriteResp (idm resp : List Nat) : Except String (List Nat) :=
  tt3CheckResp 9 idm resp

/-- A valid writable example attribute block: version 1.0, `nbr = 4`,
`nbw = 1`, `nmaxb = 2` (capacity 32 bytes), writeable, `ln = 0`,
checksum `24 = 16+4+1+2+1`. -/
def attrEx : List Nat := [16, 4, 1, 0, 2, 0, 0, 0, 0, 0, 1, 0, 0, 0, 0, 24]

/-- A valid read-only example attribute block (`attr[10] = 0`). -/
def attrRO : List Nat := [16, 4, 1, 0, 2, 0, 0, 0, 0, 0, 0, 0, 0, 0, 0, 23]

/-- A valid example attribute block with `nbr = 4`, capacity 256 bytes and
a stored message of `ln = 64` bytes (the spec's 64-byte scenario). -/
def attr64 : List Nat := [16, 4, 1, 0, 16, 0, 0, 0, 0, 0, 1, 0, 0, 64, 0, 102]


/-! ## Helper lemmas -/

theorem eq_list8 (l : List Nat) (h : l.length = 8) :
    ∃ b0 b1 b2 b3 b4 b5 b6 b7, l = [b0, b1, b2, b3, b4, b5, b6, b7] := by
  rcases l with _ | ⟨b0, l⟩
  · simp only [List.length_nil] at h; omega
  rcases l with _ | ⟨b1, l⟩
  · simp only [List.length_cons, List.length_nil] at h; omega
  rcases l with _ | ⟨b2, l⟩
  · simp only [List.length_cons, List.length_nil] at h; omega
  rcases l with _ | ⟨b3, l⟩
  · simp only [List.length_cons, List.length_nil] at h; omega
  rcases l with _ | ⟨b4, l⟩
  · simp only [List.length_cons, List.length_nil] at h; omega
  rcases l with _ | ⟨b5, l⟩
  · simp only [List.length_cons, List.length_nil] at h; omega
  rcases l with _ | ⟨b6, l⟩
  · simp only [List.length_cons, List.length_nil] at h; omega
  rcases l with _ | ⟨b7, l⟩
  · simp only [List.length_cons, List.length_nil] at h; omega
  rcases l with _ | ⟨b8, l⟩
  · exact ⟨b0, b1, b2, b3, b4, b5, b6, b7, rfl⟩
  · simp only [List.length_cons] at h; omega

theorem eq_list16 (l : List Nat) (h : l.length = 16) :
    ∃ b0 b1 b2 b3 b4 b5 b6 b7 b8 b9 b10 b11 b12 b13 b14 b15,
      l = [b0, b1, b2, b3, b4, b5, b6, b7, b8, b9, b10, b11, b12, b13, b14, b15] := by
  have h8 : (l.take 8).length = 8 := by rw [List.length_take]; omega
  have h8' : (l.drop 8).length = 8 := by rw [List.length_drop]; omega
  obtain ⟨b0, b1, b2, b3, b4, b5, b6, b7, hfront⟩ := eq_list8 (l.take 8) h8
  obtain ⟨b8, b9, b10, b11, b12, b13, b14, b15, hback⟩ := eq_list8 (l.drop 8) h8'
  refine ⟨b0, b1, b2, b3, b4, b5, b6, b7, b8, b9, b10, b11, b12, b13, b14, b15, ?_⟩
  rw [← List.take_append_drop 8 l, hfront, hback]
  rfl

theorem beq_div_mod (s : Nat) : (s == s / 256 * 256 + s % 256) = true := by
  simp only [beq_iff_eq]; omega

set_option maxHeartbeats 1600000 in
theorem markAttr_sixteen (b0 b1 b2 b3 b4 b5 b6 b7 b8 b9 b10 b11 b12 b13 b14 b15 n : Nat) :
    markAttr [b0, b1, b2, b3, b4, b5, b6, b7, b8, b9, b10, b11, b12, b13, b14, b15] n =
      [b0, b1, b2, b3, b4, b5, b6, b7, b8, 0x0F, b10,
        n / 0x10000, n / 0x100 % 0x100, n % 0x100] ++
      split2 (List.sum [b0, b1, b2, b3, b4, b5, b6, b7, b8, 0x0F, b10,
        n / 0x10000, n / 0x100 % 0x100, n % 0x100]) := rfl

set_option maxHeartbeats 1600000 in
theorem finalAttr_sixteen (b0 b1 b2 b3 b4 b5 b6 b7 b8 b9 b10 b11 b12 b13 b14 b15 : Nat) :
    finalAttr [b0, b1, b2, b3, b4, b5, b6, b7, b8, b9, b10, b11, b12, b13, b14, b15] =
      [b0, b1, b2, b3, b4, b5, b6, b7, b8, 0, b10, b11, b12, b13] ++
      split2 (List.sum [b0, b1, b2, b3, b4, b5, b6, b7, b8, 0, b10, b11, b12, b13]) := rfl

theorem checksumOk_append_split2 (l : List Nat) (h : l.length = 14) :
    checksumOk (l ++ split2 l.sum) = true := by
  have ht : List.take 14 (l ++ split2 l.sum) = l := by
    rw [List.take_append_of_le_length (by omega), List.take_of_length_le (by omega)]
  have h14 : (l ++ split2 l.sum).getD 14 0 = l.sum / 256 := by
    rw [List.getD_append_right _ _ _ _ (by omega), h]
    rfl
  have h15 : (l ++ split2 l.sum).getD 15 0 = l.sum % 256 := by
    rw [List.getD_append_right _ _ _ _ (by omega), h]
    rfl
  rw [checksumOk, ht, h14, h15]
  exact beq_div_mod l.sum

theorem readLoop_flatten {nbMax : Nat} (hk : 1 ≤ nbMax) :
    ∀ fuel blocks, List.length blocks ≤ fuel →
      (readLoop fuel nbMax blocks).flatten = blocks := by
  intro fuel
  induction fuel with
  | zero =>
    intro blocks hf
    rw [List.length_eq_zero.mp (Nat.le_zero.mp hf)]
    rfl
  | succ m ih =>
    intro blocks hf
    rcases blocks with _ | ⟨b, bs⟩
    · rfl
    by_cases h1 : nbMax < (b :: bs).length
    · simp only [readLoop, if_pos h1, List.flatten_cons]
      rw [ih ((b :: bs).drop nbMax) (by simp only [List.length_drop, List.length_cons] at *; omega)]
      exact List.take_append_drop nbMax (b :: bs)
    · simp only [readLoop, if_neg h1, List.isEmpty_cons, if_neg Bool.false_ne_true]
      simp

theorem readLoop_length {nbMax : Nat} (hk : 1 ≤ nbMax) :
    ∀ fuel blocks, List.length blocks ≤ fuel →
      (readLoop fuel nbMax blocks).length = (blocks.length + nbMax - 1) / nbMax := by
  intro fuel
  induction fuel with
  | zero =>
    intro blocks hf
    rw [List.length_eq_zero.mp (Nat.le_zero.mp hf)]
    simp only [readLoop, List.length_nil]
    exact (Nat.div_eq_of_lt (by omega)).symm
  | succ m ih =>
    intro blocks hf
    rcases blocks with _ | ⟨b, bs⟩
    · simp only [readLoop, List.length_nil]
      exact (Nat.div_eq_of_lt (by omega)).symm
    by_cases h1 : nbMax < (b :: bs).length
    · have hstep : readLoop (m + 1) nbMax (b :: bs) =
          List.take nbMax (b :: bs) :: readLoop m nbMax ((b :: bs).drop nbMax) := by
        simp only [readLoop, if_pos h1]
      rw [hstep, List.length_cons,
        ih ((b :: bs).drop nbMax) (by simp only [List.length_drop, List.length_cons] at *; omega),
        List.length_drop]
      have he : (b :: bs).length + nbMax - 1 = ((b :: bs).length - nbMax + nbMax - 1) + nbMax := by
        simp only [List.length_cons] at h1 ⊢; omega
      rw [he, Nat.add_div_right _ (by omega)]
    · have hstep : readLoop (m + 1) nbMax (b :: bs) = [b :: bs] := by
        simp only [readLoop, if_neg h1, List.isEmpty_cons, if_neg Bool.false_ne_true]
      rw [hstep, List.length_singleton]
      have h2 : (b :: bs).length ≤ nbMax := Nat.le_of_not_lt h1
      have he : (b :: bs).length + nbMax - 1 = ((b :: bs).length - 1) + nbMax := by
        simp only [List.length_cons]; omega
      rw [he, Nat.add_div_right _ (by omega),
        Nat.div_eq_of_lt (by simp only [List.length_cons] at h2 ⊢; omega)]

theorem readLoop_chunk_le {nbMax : Nat} :
    ∀ fuel blocks, ∀ c ∈ readLoop fuel nbMax blocks, c.length ≤ nbMax := by
  intro fuel
  induction fuel with
  | zero => intro blocks c hc; simp only [readLoop, List.not_mem_nil] at hc
  | succ m ih =>
    intro blocks c hc
    rcases blocks with _ | ⟨b, bs⟩
    · simp [readLoop] at hc
    by_cases h1 : nbMax < (b :: bs).length
    · simp only [readLoop, if_pos h1, List.mem_cons] at hc
      rcases hc with rfl | hc
      · rw [List.length_take]; omega
      · exact ih _ c hc
    · simp only [readLoop, if_neg h1, List.isEmpty_cons, if_neg Bool.false_ne_true,
        List.mem_singleton] at hc
      subst hc
      omega

theorem writeLoop_blocks_mem (data : List Nat) (nbMax : Nat) :
    ∀ fuel blocks offset, ∀ c ∈ writeLoop fuel data nbMax blocks offset,
      ∀ b ∈ c.2, b ∈ blocks := by
  intro fuel
  induction fuel with
  | zero => intro blocks offset c hc; simp only [writeLoop, List.not_mem_nil] at hc
  | succ m ih =>
    intro blocks offset c hc b hb
    rcases blocks with _ | ⟨x, xs⟩
    · simp [writeLoop] at hc
    by_cases h1 : nbMax < (x :: xs).length
    · simp only [writeLoop, if_pos h1, List.mem_cons] at hc
      rcases hc with rfl | hc
      · exact List.take_subset nbMax (x :: xs) hb
      · exact List.drop_subset nbMax (x :: xs) (ih _ _ c hc b hb)
    · simp only [writeLoop, if_neg h1, List.isEmpty_cons, if_neg Bool.false_ne_true,
        List.mem_singleton] at hc
      subst hc
      exact hb

theorem flatten_map_tagReadBlocks (mem : Nat → List Nat) :
    ∀ ls : List (List Nat),
      (ls.map (tagReadBlocks mem)).flatten = tagReadBlocks mem ls.flatten := by
  intro ls
  induction ls with
  | nil => rfl
  | cons a t ih =>
    simp only [List.map_cons, List.flatten_cons, ih, tagReadBlocks, List.map_append,
      List.flatten_append]

theorem blockRange_length (n : Nat) : (blockRange n).length = (n + 15) / 16 := by
  simp [blockRange]

theorem zero_not_mem_blockRange (n : Nat) : 0 ∉ blockRange n := by
  simp [blockRange]

theorem readChunks_flatten {nbMax : Nat} (hk : 1 ≤ nbMax) (blocks : List Nat) :
    (readChunks nbMax blocks).flatten = blocks :=
  readLoop_flatten hk blocks.length blocks le_rfl

theorem readChunks_length {nbMax : Nat} (hk : 1 ≤ nbMax) (blocks : List Nat) :
    (readChunks nbMax blocks).length = (blocks.length + nbMax - 1) / nbMax :=
  readLoop_length hk blocks.length blocks le_rfl

/-- Reduction of the setter once the permission and capacity checks pass. -/
theorem messageSet_eq (st : NDEFState) (newData : List Nat)
    (hw : writeable st.attr = true) (hc : newData.length ≤ capacity st.attr) :
    messageSet st newData =
      (((⟨markAttr st.attr newData.length, some newData⟩ : NDEFState),
          TagOp.write (markAttr st.attr newData.length) [0] ndef_write_service) ::
        (writeChunks newData ((markAttr st.attr newData.length).getD 2 0)
            (blockRange newData.length)).map
          (fun c => ((⟨markAttr st.attr newData.length, some newData⟩ : NDEFState),
            TagOp.write c.1 c.2 ndef_write_service)) ++
        [(⟨finalAttr (markAttr st.attr newData.length), some newData⟩,
          TagOp.write (finalAttr (markAttr st.attr newData.length)) [0] ndef_write_service)],
       Except.ok ⟨finalAttr (markAttr st.attr newData.length), some newData⟩) := by
  unfold messageSet
  rw [if_neg (by rw [hw]; exact fun hcontra => Bool.noConfusion hcontra), if_neg (Nat.not_lt.mpr hc)]

/-! ## Claim theorems -/

/-- Claim C1: constructing the store reads block 0; for a 16-byte attribute
block whose checksum field (bytes 14-15, big-endian) does not equal the sum
of bytes 0 through 13, construction fails with the integrity error and no
store is produced; for a block satisfying the invariant it succeeds. -/
theorem ndefInit_integrity (b : List Nat) (h : b.length = 16) :
    ((b.take 14).sum ≠ b.getD 14 0 * 256 + b.getD 15 0 → ndefInit b = none) ∧
    ((b.take 14).sum = b.getD 14 0 * 256 + b.getD 15 0 → ndefInit b = some ⟨b, none⟩) := by
  constructor
  · intro hne
    simp only [ndefInit]
    rw [if_neg (by simp only [checksumOk, beq_iff_eq]; exact hne)]
  · intro heq
    simp only [ndefInit]
    rw [if_pos (by simp only [checksumOk, beq_iff_eq]; exact heq)]

/-- Witness for C1: the concrete valid block `attrEx` is accepted. -/
theorem ndefInit_integrity_witness :
    ndefInit attrEx = some ⟨attrEx, none⟩ :=
  (ndefInit_integrity attrEx (by decide)).2 (by decide)

/-- Claim C2 is false of the code (code bug): writing a 20-byte message with
`nbw = 1` (attribute block `attrEx`), the third issued write carries a
4-byte chunk for a one-block list instead of the required padded 16 bytes:
the list of (data length, 16 x block count) per issued write evaluates to
`[(16,16), (16,16), (4,16), (16,16)]`.  The padding expression
`len(blocks)*16 - len(data)` in the source ignores the consumed offset, so
it is negative for every multi-chunk unaligned write and pads nothing. -/
theorem messageSet_short_final_chunk :
    ((messageSet ⟨attrEx, none⟩ (List.replicate 20 7)).1.map
        (fun p => match p.2 with
          | TagOp.read _ _ => (0, 0)
          | TagOp.write d bl _ => (d.length, 16 * bl.length))) =
      [(16, 16), (16, 16), (4, 16), (16, 16)] := by decide

/-- Claim C3 counterexample: this read response is well-formed (correct
length byte 14, response opcode 7, matching IDm) and its status byte pair
at positions 11-12 is `(0x00, 0x05)`, which differs from `(0x00, 0x00)`;
the claim demands a protocol status error, but the code accepts it and
returns the payload, because only byte 11 is consulted. -/
theorem type3ReadResp_status_pair_cex :
    type3ReadResp [1, 2, 3, 4, 5, 6, 7, 8]
        [14, 7, 1, 2, 3, 4, 5, 6, 7, 8, 0, 0, 5, 9] = Except.ok [9] := rfl

/-- Claim C3 (amended): for every well-formed response (correct length
byte, response opcode and tag identity), the command succeeds iff the
status byte at position 11 is zero — byte 12 does not influence the
success decision; a non-zero byte 11 raises the protocol status error
carrying bytes 11 and 12 verbatim as lowercase hex, and on success the
returned payload starts at byte 13. -/
theorem tt3CheckResp_status (rc b10 s1 s2 : Nat) (idm payload : List Nat)
    (hidm : idm.length = 8) :
    (s1 = 0 → tt3CheckResp rc idm
        ((13 + payload.length) :: rc :: (idm ++ b10 :: s1 :: s2 :: payload)) =
      Except.ok payload) ∧
    (s1 ≠ 0 → tt3CheckResp rc idm
        ((13 + payload.length) :: rc :: (idm ++ b10 :: s1 :: s2 :: payload)) =
      Except.error ("tt3 command error " ++ encodeHex [s1, s2])) := by
  obtain ⟨i0, i1, i2, i3, i4, i5, i6, i7, rfl⟩ := eq_list8 idm hidm
  have hlen : ((13 + payload.length) :: rc ::
      ([i0, i1, i2, i3, i4, i5, i6, i7] ++ b10 :: s1 :: s2 :: payload)).length =
      13 + payload.length := by
    simp only [List.length_cons, List.length_append, List.length_nil]
    omega
  have hpre : List.isPrefixOf
      (((13 + payload.length) :: rc ::
        ([i0, i1, i2, i3, i4, i5, i6, i7] ++ b10 :: s1 :: s2 :: payload)).length ::
        rc :: [i0, i1, i2, i3, i4, i5, i6, i7])
      ((13 + payload.length) :: rc ::
        ([i0, i1, i2, i3, i4, i5, i6, i7] ++ b10 :: s1 :: s2 :: payload)) = true := by
    rw [hlen]
    simp [List.isPrefixOf]
  have hs1 : ((13 + payload.length) :: rc ::
      ([i0, i1, i2, i3, i4, i5, i6, i7] ++ b10 :: s1 :: s2 :: payload)).getD 11 0 = s1 := rfl
  constructor
  · intro h1
    simp only [tt3CheckResp]
    rw [if_neg (by rw [hpre]; exact fun hcontra => Bool.noConfusion hcontra), hs1, h1,
      if_neg (by decide)]
    rfl
  · intro h1
    simp only [tt3CheckResp]
    rw [if_neg (by rw [hpre]; exact fun hcontra => Bool.noConfusion hcontra), hs1,
      if_pos (bne_iff_ne.mpr h1)]
    rfl

/-- Witness for C3 on the spec's scenario: status bytes `0x01, 0xA2` surface
as the protocol status error with diagnostic `"01a2"`. -/
theorem tt3CheckResp_status_witness :
    tt3CheckResp 7 [1, 2, 3, 4, 5, 6, 7, 8]
        ((13 + List.length ([] : List Nat)) :: 7 ::
          ([1, 2, 3, 4, 5, 6, 7, 8] ++ 0 :: 1 :: 162 :: ([] : List Nat))) =
      Except.error ("tt3 command error " ++ encodeHex [1, 162]) ∧
    "tt3 command error " ++ encodeHex [1, 162] = "tt3 command error 01a2" :=
  ⟨(tt3CheckResp_status 7 0 1 162 [1, 2, 3, 4, 5, 6, 7, 8] [] (by decide)).2 (by decide),
   by decide⟩

/-- Claim C4: an uncached read with declared length `ln` issues exactly the
reads of the chunks of `1 .. ceil(ln/16)` (each chunk at most `nbr` blocks,
consecutive and in order, with the NDEF-read service code), that is
`ceil(ceil(ln/16)/nbr)` exchanges, and returns the first `ln` bytes of the
concatenated block contents. -/
theorem messageGet_uncached (mem : Nat → List Nat) (attr : List Nat)
    (hk : 1 ≤ attr.getD 1 0) :
    (messageGet mem ⟨attr, none⟩).2.2 =
      (readChunks (attr.getD 1 0) (blockRange (ndefLength attr))).map
        (fun c => TagOp.read c ndef_read_service) ∧
    (messageGet mem ⟨attr, none⟩).2.2.length =
      ((ndefLength attr + 15) / 16 + attr.getD 1 0 - 1) / attr.getD 1 0 ∧
    (∀ c ∈ readChunks (attr.getD 1 0) (blockRange (ndefLength attr)),
        c.length ≤ attr.getD 1 0) ∧
    (readChunks (attr.getD 1 0) (blockRange (ndefLength attr))).flatten =
      blockRange (ndefLength attr) ∧
    (messageGet mem ⟨attr, none⟩).1 =
      (tagReadBlocks mem (blockRange (ndefLength attr))).take (ndefLength attr) := by
  refine ⟨rfl, ?_, ?_, ?_, ?_⟩
  · show ((readChunks (attr.getD 1 0) (blockRange (ndefLength attr))).map
        (fun c => TagOp.read c ndef_read_service)).length = _
    rw [List.length_map, readChunks_length hk, blockRange_length]
  · exact fun c hcm => readLoop_chunk_le _ _ c hcm
  · exact readChunks_flatten hk _
  · show (((readChunks (attr.getD 1 0) (blockRange (ndefLength attr))).map
        (tagReadBlocks mem)).flatten).take (ndefLength attr) = _
    rw [flatten_map_tagReadBlocks, readChunks_flatten hk]

/-- Witness for C4 on the spec's 64-byte scenario (`ln = 64`, `nbr = 4`):
one single exchange is issued. -/
theorem messageGet_uncached_witness :
    (messageGet (fun _ => List.replicate 16 0) ⟨attr64, none⟩).2.2.length = 1 := by
  have h := messageGet_uncached (fun _ => List.replicate 16 0) attr64 (by decide)
  rw [h.2.1]
  decide

/-- Claim C5: writing message `M` (permission granted, within capacity) and
then reading the message back yields exactly `M`, byte for byte, whether or
not `len(M)` is a multiple of 16 (the read is served from the cache the
setter installed). -/
theorem write_then_read (mem : Nat → List Nat) (st : NDEFState) (M : List Nat)
    (hw : writeable st.attr = true) (hk : 1 ≤ st.attr.getD 2 0)
    (hc : M.length ≤ capacity st.attr) :
    (messageSet st M).2 = Except.ok ⟨finalAttr (markAttr st.attr M.length), some M⟩ ∧
    (messageGet mem ⟨finalAttr (markAttr st.attr M.length), some M⟩).1 = M := by
  refine ⟨?_, rfl⟩
  rw [messageSet_eq st M hw hc]

/-- Witness for C5 at `attrEx` and the 3-byte message `[1,2,3]`. -/
theorem write_then_read_witness :
    (messageGet (fun _ => List.replicate 16 0)
        ⟨finalAttr (markAttr attrEx 3), some [1, 2, 3]⟩).1 = [1, 2, 3] :=
  (write_then_read (fun _ => List.replicate 16 0) ⟨attrEx, none⟩ [1, 2, 3]
    (by decide) (by decide) (by decide)).2

/-- Claim C6: writing a message of length exactly `capacity` passes the
capacity check and proceeds, while a message of `capacity + 1` bytes fails
with the capacity error before any transport exchange (empty trace). -/
theorem capacity_boundary (st : NDEFState) (M M' : List Nat)
    (hw : writeable st.attr = true) (hk : 1 ≤ st.attr.getD 2 0)
    (hM : M.length = capacity st.attr) (hM' : M'.length = capacity st.attr + 1) :
    (messageSet st M).2 = Except.ok ⟨finalAttr (markAttr st.attr M.length), some M⟩ ∧
    (messageSet st M').1 = [] ∧
    (messageSet st M').2 = Except.error "too much data" := by
  refine ⟨?_, ?_, ?_⟩
  · rw [messageSet_eq st M hw (le_of_eq hM)]
  · unfold messageSet
    rw [if_neg (by rw [hw]; exact fun hcontra => Bool.noConfusion hcontra),
      if_pos (by omega)]
  · unfold messageSet
    rw [if_neg (by rw [hw]; exact fun hcontra => Bool.noConfusion hcontra),
      if_pos (by omega)]

/-- Witness for C6 at `attrEx` (capacity 32): 32 bytes pass, 33 bytes fail
with the capacity error and an empty trace. -/
theorem capacity_boundary_witness :
    (messageSet ⟨attrEx, none⟩ (List.replicate 33 1)).1 = [] ∧
    (messageSet ⟨attrEx, none⟩ (List.replicate 33 1)).2 = Except.error "too much data" :=
  ⟨(capacity_boundary ⟨attrEx, none⟩ (List.replicate 32 1) (List.replicate 33 1)
      (by decide) (by decide) (by decide) (by decide)).2.1,
   (capacity_boundary ⟨attrEx, none⟩ (List.replicate 32 1) (List.replicate 33 1)
      (by decide) (by decide) (by decide) (by decide)).2.2⟩

/-- Claim C7: for every message value (of any length, even above capacity),
a write while `writeable` is false fails with the permission error and an
empty trace — the permission check precedes the capacity check and any
I/O, and neither the cache nor the attribute block is touched (no new
state is produced). -/
theorem write_not_writeable (st : NDEFState) (M : List Nat)
    (hw : writeable st.attr = false) :
    (messageSet st M).1 = [] ∧
    (messageSet st M).2 = Except.error "tag writing disabled" := by
  unfold messageSet
  rw [if_pos hw]
  exact ⟨rfl, rfl⟩

/-- Witness for C7 at the read-only block `attrRO` with a 100-byte message
(which also exceeds capacity 32 — the permission error wins). -/
theorem write_not_writeable_witness :
    (messageSet ⟨attrRO, none⟩ (List.replicate 100 1)).1 = [] ∧
    (messageSet ⟨attrRO, none⟩ (List.replicate 100 1)).2 =
      Except.error "tag writing disabled" :=
  write_not_writeable ⟨attrRO, none⟩ (List.replicate 100 1) (by decide)

/-- Claim C8: a successful write issues exactly two block-0 attribute
writes, the first one (before the data chunks) with the in-progress flag
`attr[9] = 0x0F` and `ln` set to the new length and a freshly recomputed
checksum, the second one (after all data chunks, whose block lists never
contain block 0) with the flag cleared to `0x00` and the checksum
recomputed again; both written attribute blocks satisfy the checksum
invariant. -/
theorem messageSet_two_phase (st : NDEFState) (M : List Nat)
    (h16 : st.attr.length = 16) (hw : writeable st.attr = true)
    (hk : 1 ≤ st.attr.getD 2 0) (hc : M.length ≤ capacity st.attr) :
    (messageSet st M).1.map Prod.snd =
      TagOp.write (markAttr st.attr M.length) [0] ndef_write_service ::
        ((writeChunks M ((markAttr st.attr M.length).getD 2 0) (blockRange M.length)).map
          (fun c => TagOp.write c.1 c.2 ndef_write_service) ++
         [TagOp.write (finalAttr (markAttr st.attr M.length)) [0] ndef_write_service]) ∧
    (∀ c ∈ writeChunks M ((markAttr st.attr M.length).getD 2 0) (blockRange M.length),
        0 ∉ c.2) ∧
    (markAttr st.attr M.length).getD 9 0 = 0x0F ∧
    ndefLength (markAttr st.attr M.length) = M.length ∧
    checksumOk (markAttr st.attr M.length) = true ∧
    (finalAttr (markAttr st.attr M.length)).getD 9 0 = 0 ∧
    checksumOk (finalAttr (markAttr st.attr M.length)) = true := by
  refine ⟨?_, ?_, ?_⟩
  · rw [messageSet_eq st M hw hc]
    simp [List.map_append, List.map_map, Function.comp]
  · intro c hcm h0
    simp only [writeChunks] at hcm
    exact zero_not_mem_blockRange M.length
      (writeLoop_blocks_mem M ((markAttr st.attr M.length).getD 2 0)
        (blockRange M.length).length (blockRange M.length) 0 c hcm 0 h0)
  · obtain ⟨b0, b1, b2, b3, b4, b5, b6, b7, b8, b9, b10, b11, b12, b13, b14, b15, hb⟩ :=
      eq_list16 st.attr h16
    rw [hb, markAttr_sixteen]
    refine ⟨rfl, ?_, ?_, ?_, ?_⟩
    · show M.length / 0x10000 * 65536 + M.length / 0x100 % 0x100 * 256 + M.length % 0x100
        = M.length
      omega
    · exact checksumOk_append_split2 _ rfl
    · simp only [split2, List.cons_append, List.nil_append]
      rw [finalAttr_sixteen]
      rfl
    · simp only [split2, List.cons_append, List.nil_append]
      rw [finalAttr_sixteen]
      exact checksumOk_append_split2 _ rfl

/-- Witness for C8 at `attrEx` and the message `[1,2,3]`: both written
attribute blocks satisfy the checksum invariant. -/
theorem messageSet_two_phase_witness :
    checksumOk (markAttr attrEx 3) = true ∧
    checksumOk (finalAttr (markAttr attrEx 3)) = true :=
  ⟨(messageSet_two_phase ⟨attrEx, none⟩ [1, 2, 3]
      (by decide) (by decide) (by decide) (by decide)).2.2.2.2.1,
   (messageSet_two_phase ⟨attrEx, none⟩ [1, 2, 3]
      (by decide) (by decide) (by decide) (by decide)).2.2.2.2.2.2⟩

/-- Claim C9: reading the message twice without an intervening write
returns the identical value both times, and the second read issues zero
transport exchanges (once cached, reads are served from the cache). -/
theorem read_idempotent (mem : Nat → List Nat) (st : NDEFState)
    (hk : 1 ≤ st.attr.getD 1 0) :
    (messageGet mem (messageGet mem st).2.1).1 = (messageGet mem st).1 ∧
    (messageGet mem (messageGet mem st).2.1).2.2 = [] := by
  rcases hd : st.data with _ | d
  · constructor <;> simp [messageGet, hd]
  · constructor <;> simp [messageGet, hd]

/-- Witness for C9 at `attr64`: the second read issues no exchange. -/
theorem read_idempotent_witness :
    (messageGet (fun _ => List.replicate 16 0)
        (messageGet (fun _ => List.replicate 16 0) ⟨attr64, none⟩).2.1).2.2 = [] :=
  (read_idempotent (fun _ => List.replicate 16 0) ⟨attr64, none⟩ (by decide)).2

/-- Claim C10: once the permission and capacity checks pass, the setter
stores `new_data` in the cache before issuing any exchange: at the moment
each exchange of the write is issued, the in-memory state already has
`data = some new_data`, and a message read from that state returns
`new_data` with zero exchanges — so if the write aborts at any exchange,
a subsequent read is served the new value from the cache. -/
theorem cache_set_before_io (mem : Nat → List Nat) (st : NDEFState) (M : List Nat)
    (hw : writeable st.attr = true) (hk : 1 ≤ st.attr.getD 2 0)
    (hc : M.length ≤ capacity st.attr) :
    ∀ p ∈ (messageSet st M).1,
      p.1.data = some M ∧
      (messageGet mem p.1).1 = M ∧ (messageGet mem p.1).2.2 = [] := by
  intro p hp
  rw [messageSet_eq st M hw hc] at hp
  have hdata : p.1.data = some M := by
    rcases List.mem_append.mp hp with hmem | hmem
    · rcases List.mem_cons.mp hmem with rfl | hmem2
      · rfl
      · obtain ⟨c, hcmem, rfl⟩ := List.mem_map.mp hmem2
        rfl
    · rw [List.mem_singleton.mp hmem]
  refine ⟨hdata, ?_, ?_⟩ <;> simp [messageGet, hdata]

/-- Witness for C10: the state paired with the first exchange of a write of
`[1,2,3]` at `attrEx` already carries the new cache value. -/
theorem cache_set_before_io_witness :
    ((messageSet ⟨attrEx, none⟩ [1, 2, 3]).1.getD 0
        ⟨⟨[], none⟩, TagOp.read [] 0⟩).1.data = some [1, 2, 3] :=
  (cache_set_before_io (fun _ => List.replicate 16 0) ⟨attrEx, none⟩ [1, 2, 3]
      (by decide) (by decide) (by decide) _ (by decide)).1
